import Mathlib

/-!
Verification development for the simple-frame-smartcrop repository
(an Express + React tool that lets an operator draw crop boxes over an
uploaded bitmap, seeded by OCR text detection, and extracts each box as a
saved sub-image).

The definitions below are a shallow embedding of the two source files:

* `src/server/src/index.ts` — the detection strategies `detectPresto` and
  `detectNurreBig`, the `/api/detect-item-numbers` route, and the
  `/api/multiple-crop-mouldings` extraction route;
* `src/client/src/App.tsx` — the box-geometry mutations (drag, resize,
  keyboard nudge), hit testing, and the view (zoom/pan/focus) state.

JavaScript numbers are modelled as rationals (`ℚ`), `Math.floor` and
`Math.round` as `⌊·⌋` and `⌊· + 1/2⌋` on `ℚ`; the OCR engine and the image
resampling done by sharp are external collaborators and enter the model as
data (recognized word lists, the rotated bitmap's pixels).
-/

namespace SFS

/-! ## JavaScript numeric helpers -/

/-- Model of JavaScript `Math.round`: round half toward positive infinity. -/
def jsRound (q : ℚ) : ℤ := ⌊q + 1/2⌋

/-- Model of JavaScript `Math.floor`. -/
def jsFloor (q : ℚ) : ℤ := ⌊q⌋

/-- Model of the client's `snap(v, 1)`, i.e. `Math.round(v / 1) * 1`. -/
def snapQ (v : ℚ) : ℚ := ((jsRound v : ℤ) : ℚ)

/-! ## Detection engine (server `index.ts`)

`ocrRecognize` is the external OCR engine; a recognized word arrives as its
text, its bounding box `x0, y0, x1, y1` and a confidence value, exactly the
fields the server reads from tesseract's output. -/

/-- One recognized word as the server reads it from the OCR output. -/
structure RawWord where
  text : String
  x0 : ℚ
  y0 : ℚ
  x1 : ℚ
  y1 : ℚ
  conf : ℚ
deriving DecidableEq

/-- Model of `raw.replace(/\D/g, '')`: keep only the digit characters. -/
def digitsOf (s : String) : String := String.mk (s.toList.filter Char.isDigit)

/-- A detection candidate after the server's two mapping passes: digit-only
text, box, centroid, confidence and aspect ratio (`detectPresto` lines 42-56
and 68-69 of `index.ts`). -/
structure Cand where
  text : String
  x : ℚ
  y : ℚ
  w : ℚ
  h : ℚ
  cx : ℚ
  cy : ℚ
  conf : ℚ
  ar : ℚ
deriving DecidableEq

/-- Mapping of a raw word to a candidate in `detectPresto`:
`W = max(0, x1-x0)`, `H = max(0, y1-y0)`, centroid at the box center,
`text` digit-stripped, `ar = w > 0 ? w / h : 0`. (Division by zero is `0`
in `ℚ`; a candidate with `h = 0` and `w > 0` is rejected by the aspect
filter either way, as it is in the source where `w / 0` is `Infinity`.) -/
def toCand (wd : RawWord) : Cand :=
  let Wd := max 0 (wd.x1 - wd.x0)
  let Hd := max 0 (wd.y1 - wd.y0)
  { text := digitsOf wd.text, x := wd.x0, y := wd.y0, w := Wd, h := Hd,
    cx := wd.x0 + Wd/2, cy := wd.y0 + Hd/2, conf := wd.conf,
    ar := if 0 < Wd then Wd / Hd else 0 }

/-- The PRIMARY (presto) filter: `^\d{3,6}$` on the digit-stripped text,
`conf ≥ 60`, centroid within the left or right 12% of the width,
height within `[0.010·H, 0.06·H]`, aspect ratio within `[0.9, 6.0]`. -/
def prestoKeep (imgW imgH : ℚ) (c : Cand) : Bool :=
  decide ((3 ≤ c.text.length ∧ c.text.length ≤ 6) ∧
    60 ≤ c.conf ∧
    (c.cx ≤ imgW * (12/100) ∨ imgW * (1 - 12/100) ≤ c.cx) ∧
    (imgH * (10/1000) ≤ c.h ∧ c.h ≤ imgH * (6/100)) ∧
    ((9/10) ≤ c.ar ∧ c.ar ≤ 6))

/-- Stable insertion of `a` after every element `b` with `le b a`, matching
the stability of JavaScript `Array.prototype.sort`. -/
def insertLe {α : Type} (le : α → α → Bool) (a : α) : List α → List α
  | [] => [a]
  | b :: l => if le b a then b :: insertLe le a l else a :: b :: l

/-- Stable sort by the comparator `le` (insertion sort, processing the list
left to right). -/
def sortLe {α : Type} (le : α → α → Bool) (l : List α) : List α :=
  l.foldl (fun acc a => insertLe le a acc) []

/-- The presto comparator `a.y - b.y || a.x - b.x`: ascending `(y, x)`. -/
def prestoLe (a b : Cand) : Bool :=
  decide (a.y < b.y ∨ (a.y = b.y ∧ a.x ≤ b.x))

/-- The presto row-merge gap `Math.round((imgH || 1000) * 0.015) || 15`:
round `0.015·H` (with `H` replaced by 1000 when it is 0) and fall back to
15 only when the rounding gave 0. -/
def mergeGap (imgH : ℚ) : ℚ :=
  let r : ℤ := jsRound ((if imgH = 0 then 1000 else imgH) * (15/1000))
  if r = 0 then 15 else (r : ℚ)

/-- The presto dedup walk (`index.ts` lines 80-89): walk the sorted
candidates; push a candidate when the list is empty or its vertical center
is more than the gap away from the last kept one, otherwise replace the
last kept one when the new candidate has strictly higher confidence. -/
def dedupGo (gap : ℚ) : List Cand → List Cand → List Cand
  | acc, [] => acc
  | acc, d :: rest =>
    match acc.getLast? with
    | none => dedupGo gap (acc ++ [d]) rest
    | some last =>
      if gap < |d.cy - last.cy| then dedupGo gap (acc ++ [d]) rest
      else if last.conf < d.conf then dedupGo gap (acc.dropLast ++ [d]) rest
      else dedupGo gap acc rest

/-- One reported detection `{text, x, y, w, h, conf}`. -/
structure Det where
  text : String
  x : ℚ
  y : ℚ
  w : ℚ
  h : ℚ
  conf : ℚ
deriving DecidableEq

/-- Projection of a candidate to a reported detection. -/
def candToDet (c : Cand) : Det := ⟨c.text, c.x, c.y, c.w, c.h, c.conf⟩

/-- A strategy's output: the detections and the item-number strings. -/
structure DetectOut where
  detections : List Det
  itemNumbers : List String
deriving DecidableEq

/-- Strategy PRIMARY, `detectPresto`: map the OCR words to candidates,
filter, sort by `(y, x)` ascending, deduplicate rows, report. -/
def detectPresto (words : List RawWord) (imgW imgH : ℚ) : DetectOut :=
  let candidates := sortLe prestoLe ((words.map toCand).filter (prestoKeep imgW imgH))
  let dets := (dedupGo (mergeGap imgH) [] candidates).map candToDet
  ⟨dets, dets.map (·.text)⟩

/-- The nurre comparator
`b.cy - a.cy || a.x - b.x || b.h - a.h || b.conf - a.conf`:
descending center-y, ascending x, descending height, descending confidence. -/
def nurreLe (a b : Cand) : Bool :=
  decide (b.cy < a.cy ∨ (b.cy = a.cy ∧ (a.x < b.x ∨ (a.x = b.x ∧
    (b.h < a.h ∨ (b.h = a.h ∧ b.conf ≤ a.conf))))))

/-- Mapping of a raw word to a candidate in `detectNurreBig`: the word was
recognized inside the bottom-left region of interest, so `baseTop` is added
back to its vertical coordinates. -/
def toCandNurre (baseTop : ℚ) (wd : RawWord) : Cand :=
  let Wd := max 0 (wd.x1 - wd.x0)
  let Hd := max 0 (wd.y1 - wd.y0)
  { text := digitsOf wd.text, x := wd.x0, y := baseTop + wd.y0, w := Wd, h := Hd,
    cx := wd.x0 + Wd/2, cy := baseTop + wd.y0 + Hd/2, conf := wd.conf,
    ar := if 0 < Wd then Wd / Hd else 0 }

/-- The SECONDARY (nurre) filter: `^\d{3,6}$`, `conf ≥ 55`,
height within `[max(20, round(0.018·H)), round(0.12·H)]`,
aspect ratio within `[0.6, 10.0]`. -/
def nurreKeep (fullH : ℚ) (c : Cand) : Bool :=
  decide ((3 ≤ c.text.length ∧ c.text.length ≤ 6) ∧
    55 ≤ c.conf ∧
    (max 20 ((jsRound (fullH * (18/1000)) : ℤ) : ℚ) ≤ c.h ∧
      c.h ≤ ((jsRound (fullH * (12/100)) : ℤ) : ℚ)) ∧
    ((6/10) ≤ c.ar ∧ c.ar ≤ 10))

/-- Strategy SECONDARY, `detectNurreBig`: recognition restricted to the
bottom-left region (`ROI_H = max(1, round(0.30·H))`, words translated back
by `baseTop = H - ROI_H`), filter, sort bottom-left-big-first, take 3. -/
def detectNurreBig (words : List RawWord) (fullW fullH : ℚ) : DetectOut :=
  let roiH : ℚ := max 1 ((jsRound (fullH * (30/100)) : ℤ) : ℚ)
  let baseTop := fullH - roiH
  let sorted := sortLe nurreLe ((words.map (toCandNurre baseTop)).filter (nurreKeep fullH))
  let dets := (sorted.take 3).map candToDet
  ⟨dets, dets.map (·.text)⟩

/-- The strategy dispatch of `/api/detect-item-numbers` (lines 203-215):
`nurre` runs SECONDARY and falls back to PRIMARY when SECONDARY found
nothing, adopting PRIMARY's output only when it is nonempty; any other
strategy value runs PRIMARY. -/
def detectRoute (strategy : String) (prestoWords nurreWords : List RawWord)
    (imgW imgH : ℚ) : DetectOut :=
  if strategy = "nurre" then
    let out := detectNurreBig nurreWords imgW imgH
    if out.itemNumbers.isEmpty then
      let p := detectPresto prestoWords imgW imgH
      if p.itemNumbers.isEmpty then out else p
    else out
  else detectPresto prestoWords imgW imgH

/-- JavaScript `o || d` for an optional string: the string when present and
nonempty (truthy), otherwise the default. -/
def truthyD (o : Option String) (d : String) : String :=
  match o with
  | some s => if s = "" then d else s
  | none => d

/-- The strategy selector
`req.query.strategy || req.body?.strategy || req.headers['x-ocr-strategy'] || 'presto'`. -/
def selectStrategy (q b hdr : Option String) : String :=
  truthyD q (truthyD b (truthyD hdr "presto"))

/-- The JSON body of a `/api/detect-item-numbers` response. `ok` is whether
the route answered with a success status (`res.json`, 200) rather than an
error status; the `Option` fields are present only in the full response. -/
structure HttpResponse where
  ok : Bool
  detections : List Det
  itemNumbers : List String
  imageWidth : Option ℚ
  imageHeight : Option ℚ
  strategyUsed : Option String
deriving DecidableEq

/-- The `/api/detect-item-numbers` handler (lines 177-230). `file` is
whether a bitmap was attached; `outcome` is what the effectful work inside
the `try` block produced — either the image dimensions and the two OCR word
lists, or a thrown error. A missing file returns `{detections: [],
itemNumbers: []}`; a throw is caught and returns the same; otherwise the
full response is built from the dispatched strategy output. -/
def detectEndpoint (file : Option Unit) (strategy : String)
    (outcome : Except Unit (ℚ × ℚ × List RawWord × List RawWord)) : HttpResponse :=
  match file with
  | none => ⟨true, [], [], none, none, none⟩
  | some _ =>
    match outcome with
    | .error _ => ⟨true, [], [], none, none, none⟩
    | .ok (w, h, pw, nwords) =>
      let out := detectRoute strategy pw nwords w h
      ⟨true, out.detections, out.itemNumbers, some w, some h, some strategy⟩

/-! ## Client box geometry (`App.tsx`)

Image-space rectangles hold rational coordinates (the resize path stores
unrounded values; only drag snaps to whole pixels). -/

/-- A crop box's image-space rectangle. -/
structure Box where
  x : ℚ
  y : ℚ
  width : ℚ
  height : ℚ
deriving DecidableEq

/-- A resize handle tag, one of `{n, s, e, w, ne, nw, se, sw}`. -/
inductive Handle
  | n | s | e | w | ne | nw | se | sw
deriving DecidableEq

/-- The resize branch of `handleMouseMove` (lines 393-417 of `App.tsx`) for
one pointer event: `dx, dy` are the image-space pointer deltas from the
drag start, `orig` the box as it was at pointer-down (`resizeStartBoxRef`),
`box` the box as it currently stands. Each handle edits width/height with a
minimum-size clamp (`max 50`, `max 20`) and, on the near (top/left) side,
sets the origin to `orig + delta`; the result is then clamped to
`[0, W - width] × [0, H - height]`. -/
def resizeBox (h : Handle) (box orig : Box) (dx dy W H : ℚ) : Box :=
  let r :=
    match h with
    | .se => (box.x, box.y, max 50 (orig.width + dx), max 20 (orig.height + dy))
    | .ne => (box.x, orig.y + dy, max 50 (orig.width + dx), max 20 (orig.height - dy))
    | .sw => (orig.x + dx, box.y, max 50 (orig.width - dx), max 20 (orig.height + dy))
    | .nw => (orig.x + dx, orig.y + dy, max 50 (orig.width - dx), max 20 (orig.height - dy))
    | .e => (box.x, box.y, max 50 (orig.width + dx), box.height)
    | .w => (orig.x + dx, box.y, max 50 (orig.width - dx), box.height)
    | .s => (box.x, box.y, box.width, max 20 (orig.height + dy))
    | .n => (box.x, orig.y + dy, box.width, max 20 (orig.height - dy))
  let nw := r.2.2.1
  let nh := r.2.2.2
  ⟨max 0 (min (W - nw) r.1), max 0 (min (H - nh) r.2.1), nw, nh⟩

/-- The drag branch of `handleMouseMove` (lines 418-428): the new origin is
the pointer position minus the grab offset, snapped to the nearest integer
pixel and clamped to `[0, W - width] × [0, H - height]`; the size is kept. -/
def dragBox (b : Box) (ox oy gx gy W H : ℚ) : Box :=
  { b with
    x := max 0 (min (W - b.width) (snapQ (ox - gx)))
    y := max 0 (min (H - b.height) (snapQ (oy - gy))) }

/-- An arrow key. -/
inductive ArrowKey
  | left | right | up | down
deriving DecidableEq

/-- The keyboard nudge (`onKey`, lines 616-619): ArrowLeft/ArrowUp clamp the
moved coordinate at 0, ArrowRight/ArrowDown add the step unclamped. -/
def nudgeBox (k : ArrowKey) (step : ℚ) (b : Box) : Box :=
  match k with
  | .left => { b with x := max 0 (b.x - step) }
  | .right => { b with x := b.x + step }
  | .up => { b with y := max 0 (b.y - step) }
  | .down => { b with y := b.y + step }

/-- The rectangle of the box `addCropBox` creates (lines 313-318): origin
`(60 + 10·nid, 60 + 10·nid)`, size 400 × 120, independent of the image
dimensions. -/
def addedBox (nid : ℕ) : Box :=
  ⟨60 + 10 * (nid : ℚ), 60 + 10 * (nid : ℚ), 400, 120⟩

/-! ## Client view and focus state (`App.tsx`) -/

/-- A box together with its id, as hit testing needs it. -/
structure BoxI where
  id : ℕ
  x : ℚ
  y : ℚ
  width : ℚ
  height : ℚ
deriving DecidableEq

/-- Hit test of `getResizeHandle` (lines 284-295): corner handles claim a
15px square at each corner, edge handles an 8px band along each edge,
checked in the source's order with the first match winning. -/
def getResizeHandle (x y : ℚ) (box : BoxI) : Option Handle :=
  let r := box.x + box.width
  let b := box.y + box.height
  if r - 15 ≤ x ∧ b - 15 ≤ y then some .se
  else if r - 15 ≤ x ∧ y ≤ box.y + 15 then some .ne
  else if x ≤ box.x + 15 ∧ b - 15 ≤ y then some .sw
  else if x ≤ box.x + 15 ∧ y ≤ box.y + 15 then some .nw
  else if r - 8 ≤ x ∧ x ≤ r + 8 then some .e
  else if box.x - 8 ≤ x ∧ x ≤ box.x + 8 then some .w
  else if b - 8 ≤ y ∧ y ≤ b + 8 then some .s
  else if box.y - 8 ≤ y ∧ y ≤ box.y + 8 then some .n
  else none

/-- The first loop of `handleMouseDown` (lines 355-367): the first box whose
15px-padded rectangle contains the pointer and whose `getResizeHandle` is
non-null, with that handle; boxes where the padded zone matches but no
handle does are skipped. -/
def findResizeTarget (ox oy : ℚ) : List BoxI → Option (BoxI × Handle)
  | [] => none
  | b :: rest =>
    if b.x - 15 ≤ ox ∧ ox ≤ b.x + b.width + 15 ∧ b.y - 15 ≤ oy ∧ oy ≤ b.y + b.height + 15 then
      match getResizeHandle ox oy b with
      | some h => some (b, h)
      | none => findResizeTarget ox oy rest
    else findResizeTarget ox oy rest

/-- The second loop of `handleMouseDown` (lines 368-372): the first box whose
body contains the pointer, with the grab offset `pointer - origin`. -/
def findDragTarget (ox oy : ℚ) : List BoxI → Option (BoxI × ℚ × ℚ)
  | [] => none
  | b :: rest =>
    if b.x ≤ ox ∧ ox ≤ b.x + b.width ∧ b.y ≤ oy ∧ oy ≤ b.y + b.height then
      some (b, ox - b.x, oy - b.y)
    else findDragTarget ox oy rest

/-- The interaction state the canvas handlers read and write: the focused
image index, the view transform (zoom and pan), and the in-progress
drag/resize/pan bookkeeping. -/
structure UIState where
  activeIdx : ℕ
  zoom : ℚ
  panOffset : ℚ × ℚ
  isPanning : Bool
  panStart : ℚ × ℚ
  isDragging : Bool
  isResizing : Bool
  dragStart : ℚ × ℚ
  resizeHandle : Option Handle
  activeCropId : Option ℕ
  resizeStartBox : Option BoxI
deriving DecidableEq

/-- The `handleMouseDown` handler (lines 344-376): switch `activeIdx` to the
pressed canvas when it differs, convert the pointer to image space through
the (stale) pan and the canvas scale, then either start a resize, start a
drag, start panning (when shift is held or the focused image is zoomed in),
or do nothing. It never writes `zoom` or `panOffset`. -/
def handleMouseDown (s : UIState) (index : ℕ) (boxes : List BoxI)
    (clientX clientY rectLeft rectTop scale : ℚ) (shiftKey : Bool) : UIState :=
  let s1 := if s.activeIdx ≠ index then { s with activeIdx := index } else s
  let x := clientX - rectLeft
  let y := clientY - rectTop
  let pan := if index = s.activeIdx then s.panOffset else (0, 0)
  let ox := (x - pan.1) / scale
  let oy := (y - pan.2) / scale
  match findResizeTarget ox oy boxes with
  | some (b, h) =>
    { s1 with
      isResizing := true
      resizeHandle := some h
      activeCropId := some b.id
      dragStart := (ox, oy)
      resizeStartBox := some b }
  | none =>
    match findDragTarget ox oy boxes with
    | some (b, gx, gy) =>
      { s1 with
        isDragging := true
        activeCropId := some b.id
        dragStart := (gx, gy) }
    | none =>
      if shiftKey ∨ (index = s.activeIdx ∧ 1 < s.zoom) then
        { s1 with
          isPanning := true
          panStart := (clientX - s.panOffset.1, clientY - s.panOffset.2) }
      else s1

/-- The thumbnail-click helper `setActiveByThumb` (lines 593-598): switch
focus and reset the view to zoom 1 and pan `(0, 0)`, clearing the selected
box. -/
def setActiveByThumb (i : ℕ) (s : UIState) : UIState :=
  { s with
    activeIdx := i
    zoom := 1
    panOffset := (0, 0)
    activeCropId := none }

/-- The Focus button's click handler in the ALL view (line 879):
`setActiveIdx(i)` and nothing else. -/
def focusButtonClick (i : ℕ) (s : UIState) : UIState :=
  { s with activeIdx := i }

/-! ## Extraction engine (`/api/multiple-crop-mouldings` in `index.ts`) -/

/-- One entry of the extraction request's `multipleCrops` array, as the
client builds it (`buildCropPayloadForIndex`). The server's `CropReq` type
declares only `x, y, width, height, rotation?, itemNumber, detectColor?`. -/
structure CropReq where
  x : ℚ
  y : ℚ
  width : ℚ
  height : ℚ
  rotation : ℚ
  itemNumber : String
  flipVertical : Bool
deriving DecidableEq

/-- A bitmap: dimensions and a pixel lookup (one channel suffices for the
identity/mirroring questions asked here). -/
structure Bitmap where
  w : ℕ
  h : ℕ
  px : ℕ → ℕ → ℕ

/-- The server's `rotPt`: rotate `(px, py)` about `(cx, cy)`; `co` and `si`
stand for the cosine and sine of the rotation angle `theta` that the source
obtains from `Math.cos`/`Math.sin` (for `rotation = 0` they are exactly
`1` and `0`). -/
def rotPt (px py cx cy co si : ℚ) : ℚ × ℚ :=
  (co * (px - cx) - si * (py - cy) + cx, si * (px - cx) + co * (py - cy) + cy)

/-- The per-box extraction geometry (lines 266-293): floor and clamp the box,
rotate the bitmap corners about its center to get the rotated-canvas extents
and offsets, rotate the box center, round to the canvas top-left, clamp the
size to the canvas and the position to `[0, RW - bw] × [0, RH - bh]`.
Returns `(rx, ry, bw, bh)`. -/
def cropRect (W H co si : ℚ) (c : CropReq) : ℤ × ℤ × ℤ × ℤ :=
  let bw0 : ℤ := max 1 (jsFloor c.width)
  let bh0 : ℤ := max 1 (jsFloor c.height)
  let bx0 : ℤ := max 0 (jsFloor c.x)
  let by0 : ℤ := max 0 (jsFloor c.y)
  let cx := W / 2
  let cy := H / 2
  let p1 := rotPt 0 0 cx cy co si
  let p2 := rotPt W 0 cx cy co si
  let p3 := rotPt W H cx cy co si
  let p4 := rotPt 0 H cx cy co si
  let minX := min (min p1.1 p2.1) (min p3.1 p4.1)
  let minY := min (min p1.2 p2.2) (min p3.2 p4.2)
  let maxX := max (max p1.1 p2.1) (max p3.1 p4.1)
  let maxY := max (max p1.2 p2.2) (max p3.2 p4.2)
  let RW : ℤ := jsRound (maxX - minX)
  let RH : ℤ := jsRound (maxY - minY)
  let ctr := rotPt ((bx0 : ℚ) + (bw0 : ℚ) / 2) ((by0 : ℚ) + (bh0 : ℚ) / 2) cx cy co si
  let rx : ℤ := jsRound (ctr.1 - minX - (bw0 : ℚ) / 2)
  let ry : ℤ := jsRound (ctr.2 - minY - (bh0 : ℚ) / 2)
  let bw := min bw0 RW
  let bh := min bh0 RH
  (max 0 (min (RW - bw) rx), max 0 (min (RH - bh) ry), bw, bh)

/-- Extraction of the rectangle `(rx, ry, bw, bh)` from a bitmap as a list
of pixel rows (sharp's `.extract`). -/
def extractRect (img : Bitmap) (rx ry bw bh : ℤ) : List (List ℕ) :=
  (List.range bh.toNat).map fun j =>
    (List.range bw.toNat).map fun i => img.px (rx.toNat + i) (ry.toNat + j)

/-- The image the server produces for one box (lines 295-299): the
extraction rectangle computed by `cropRect` applied to `rotated`, the
bitmap sharp produced by rotating the original by `-rotation` (for
`rotation = 0` that is the original bitmap itself). No further transform is
applied to the extracted buffer before it is written to disk. -/
def serverCropBox (rotated : Bitmap) (W H co si : ℚ) (c : CropReq) : List (List ℕ) :=
  let r := cropRect W H co si c
  extractRect rotated r.1 r.2.1 r.2.2.1 r.2.2.2

/-- Vertical mirroring of an image given as pixel rows (what
`flipVertical` is documented to do to the extracted image). -/
def flipRows (rows : List (List ℕ)) : List (List ℕ) := rows.reverse

/-! ## Output naming and the batch loop (`index.ts` lines 262-318) -/

/-- The label cleanup
`String(c.itemNumber || '').replace(/[^A-Za-z0-9]/g, '').toUpperCase()`. -/
def cleanLabel (s : String) : String :=
  String.mk ((s.toList.filter Char.isAlphanum).map Char.toUpper)

/-- The output base name: the cleaned label, or `CROP` followed by the
current timestamp (`Date.now()`) when the cleaned label is empty. -/
def chooseBase (label ts : String) : String :=
  let c := cleanLabel label
  if c = "" then "CROP" ++ ts else c

/-- The file name tried at attempt `k`: `BASE.png` first, then `BASE_k.png`. -/
def nameAt (base : String) (k : ℕ) : String :=
  if k = 0 then base ++ ".png" else base ++ "_" ++ toString k ++ ".png"

/-- The collision loop `while (fs.existsSync(filePath)) ...`: try
`nameAt base k` for `k = 0, 1, 2, ...` until a name not yet in the output
directory `fs` is found. Modelled with explicit fuel, since the source's
loop terminates only because the directory is finite. -/
def findNameAux (fs : List String) (base : String) : ℕ → ℕ → Option String
  | 0, _ => none
  | fuel + 1, k =>
    if nameAt base k ∈ fs then findNameAux fs base fuel (k + 1)
    else some (nameAt base k)

/-- The name the loop settles on, with enough fuel for a finite directory. -/
def findCropName (fs : List String) (base : String) : Option String :=
  findNameAux fs base (fs.length + 1) 0

/-- One entry of the extraction response's `croppedMouldings` array. -/
structure CropEntry where
  id : String
  imageUrl : String
  detectedNumber : String
deriving DecidableEq

/-- The batch loop of `/api/multiple-crop-mouldings` (lines 262-315):
process the boxes in order against the evolving state `σ` (the output
directory); a box whose processing succeeds pushes one entry, a box whose
processing throws is caught and skipped, and the loop continues either way. -/
def processBatch {σ : Type} (f : σ → CropReq → Option (CropEntry × σ)) :
    σ → List CropReq → List CropEntry × σ
  | s, [] => ([], s)
  | s, c :: rest =>
    match f s c with
    | some (e, s') =>
      let r := processBatch f s' rest
      (e :: r.1, r.2)
    | none => processBatch f s rest

/-- The per-box outcomes of a batch in input order: `some entry` for a box
that succeeds, `none` for a box whose processing throws, the state
threading matching `processBatch`. -/
def runOutcomes {σ : Type} (f : σ → CropReq → Option (CropEntry × σ)) :
    σ → List CropReq → List (Option CropEntry)
  | _, [] => []
  | s, c :: rest =>
    match f s c with
    | some (e, s') => some e :: runOutcomes f s' rest
    | none => none :: runOutcomes f s rest

/-! ## Helper lemmas -/

/-- Clamping `max 0 (min hi v)` never goes below 0. -/
theorem clamp_nonneg (v hi : ℚ) : 0 ≤ max 0 (min hi v) := le_max_left 0 _

/-- Adding back the size after the position clamp stays within the image,
provided the size itself fits. -/
theorem clamp_add_le (v w W : ℚ) (h : w ≤ W) : max 0 (min (W - w) v) + w ≤ W := by
  have h1 : max 0 (min (W - w) v) ≤ W - w := max_le (by linarith) (min_le_left _ _)
  linarith

/-- The clamp is the identity on a value already inside the range. -/
theorem clamp_eq (v hi : ℚ) (h0 : 0 ≤ v) (h1 : v ≤ hi) : max 0 (min hi v) = v := by
  rw [min_eq_right h1, max_eq_right h0]

/-- The itemNumbers of a presto output are the texts of its detections. -/
theorem presto_itemNumbers (words : List RawWord) (imgW imgH : ℚ) :
    (detectPresto words imgW imgH).itemNumbers =
      (detectPresto words imgW imgH).detections.map (·.text) := rfl

/-- The itemNumbers of a nurre output are the texts of its detections. -/
theorem nurre_itemNumbers (words : List RawWord) (fullW fullH : ℚ) :
    (detectNurreBig words fullW fullH).itemNumbers =
      (detectNurreBig words fullW fullH).detections.map (·.text) := rfl

/-- When SECONDARY found nothing, the dispatch returns exactly PRIMARY's
output (also when PRIMARY is itself empty, in which case both outputs are
the empty record). -/
theorem detectRoute_nurre_fallback (pw nwords : List RawWord) (W H : ℚ)
    (hemp : (detectNurreBig nwords W H).detections = []) :
    detectRoute "nurre" pw nwords W H = detectPresto pw W H := by
  have hn : (detectNurreBig nwords W H).itemNumbers = [] := by
    rw [nurre_itemNumbers, hemp]; rfl
  rw [detectRoute, if_pos rfl]
  by_cases hp : (detectPresto pw W H).itemNumbers.isEmpty
  · have hpd : (detectPresto pw W H).detections = [] := by
      have h2 := presto_itemNumbers pw W H
      rw [List.isEmpty_iff] at hp
      rw [hp] at h2
      exact (List.map_eq_nil_iff.mp h2.symm)
    have e1 : detectNurreBig nwords W H = ⟨[], []⟩ := by
      cases hne : detectNurreBig nwords W H with
      | mk d i =>
        rw [hne] at hemp hn
        simp only [DetectOut.mk.injEq]
        exact ⟨hemp, hn⟩
    have e2 : detectPresto pw W H = ⟨[], []⟩ := by
      have hp' := hp
      rw [List.isEmpty_iff] at hp'
      cases hpe : detectPresto pw W H with
      | mk d i =>
        rw [hpe] at hpd hp'
        simp only [DetectOut.mk.injEq]
        exact ⟨hpd, hp'⟩
    simp [hn, hp, e1, e2]
  · simp [hn, hp]

/-! ## Claim theorems -/

/-- Claim C1 (code bug): the server's per-box extraction is entirely
independent of `flipVertical` — the field does not even appear in the
server's `CropReq` type and the handler never reads it — so the image
produced for a box with `flipVertical = true` is identical to, not the
vertical mirror of, the image produced with `flipVertical = false`: on the
1×2 bitmap with pixel rows `[[0], [1]]` and the full-image box at rotation
0, both flags give `[[0], [1]]`, whereas the documented behavior would give
the mirror `[[1], [0]]`. -/
theorem server_crop_ignores_flipVertical :
    (∀ (rotated : Bitmap) (W H co si : ℚ) (c : CropReq) (b : Bool),
      serverCropBox rotated W H co si { c with flipVertical := b } =
        serverCropBox rotated W H co si { c with flipVertical := false }) ∧
    serverCropBox ⟨1, 2, fun _ j => j⟩ 1 2 1 0 ⟨0, 0, 1, 2, 0, "A", true⟩ = [[0], [1]] ∧
    serverCropBox ⟨1, 2, fun _ j => j⟩ 1 2 1 0 ⟨0, 0, 1, 2, 0, "A", false⟩ = [[0], [1]] ∧
    serverCropBox ⟨1, 2, fun _ j => j⟩ 1 2 1 0 ⟨0, 0, 1, 2, 0, "A", true⟩ ≠
      flipRows (serverCropBox ⟨1, 2, fun _ j => j⟩ 1 2 1 0 ⟨0, 0, 1, 2, 0, "A", false⟩) := by
  have hr : cropRect 1 2 1 0 ⟨0, 0, 1, 2, 0, "A", true⟩ = (0, 0, 1, 2) := by
    simp only [cropRect, rotPt, jsRound, jsFloor]
    norm_num
  have hr' : cropRect 1 2 1 0 ⟨0, 0, 1, 2, 0, "A", false⟩ = (0, 0, 1, 2) := by
    simp only [cropRect, rotPt, jsRound, jsFloor]
    norm_num
  have h1 : serverCropBox ⟨1, 2, fun _ j => j⟩ 1 2 1 0 ⟨0, 0, 1, 2, 0, "A", true⟩ = [[0], [1]] := by
    rw [serverCropBox, hr]; decide
  have h2 : serverCropBox ⟨1, 2, fun _ j => j⟩ 1 2 1 0 ⟨0, 0, 1, 2, 0, "A", false⟩ = [[0], [1]] := by
    rw [serverCropBox, hr']; decide
  refine ⟨fun rotated W H co si c b => rfl, h1, h2, ?_⟩
  rw [h1, h2]
  decide

/-- Claim C2 counterexample: a box legally occupying the whole width of a
50×20 image (`x = 0`, `width = 50`, so `0 ≤ x` and `x + width ≤ 50` hold)
is pushed to `x = 1` by one unmodified ArrowRight nudge, after which
`x + width = 51 > 50 = imageWidth`: the keyboard nudge does not enforce the
right bound. -/
theorem nudge_right_escapes_image :
    (0 : ℚ) ≤ (⟨0, 0, 50, 20⟩ : Box).x ∧
    (⟨0, 0, 50, 20⟩ : Box).x + (⟨0, 0, 50, 20⟩ : Box).width ≤ 50 ∧
    nudgeBox .right 1 ⟨0, 0, 50, 20⟩ = ⟨1, 0, 50, 20⟩ ∧
    50 < (nudgeBox .right 1 ⟨0, 0, 50, 20⟩).x + (nudgeBox .right 1 ⟨0, 0, 50, 20⟩).width := by
  refine ⟨by norm_num, by norm_num, ?_, ?_⟩ <;> simp only [nudgeBox] <;> norm_num

/-- Claim C2 (corrected): what the mutations actually enforce. A drag keeps
the size and clamps the box into `[0, W-width] × [0, H-height]` whenever
the box fits the image; a resize keeps `width ≥ 50`, `height ≥ 20` (given
they held before, since `n`/`s` handles copy the width and `e`/`w` handles
copy the height), keeps `x, y ≥ 0`, and respects the right/bottom bounds
exactly when the new size fits the image; keyboard nudges keep the size and
the left/top bounds only; `addCropBox` creates a fixed 400×120 box at a
nonnegative position with no right/bottom clamping. -/
theorem box_mutations_amended (b box orig : Box) (h : Handle) (k : ArrowKey)
    (dx dy ox oy gx gy step W H : ℚ) :
    (b.width ≤ W → b.height ≤ H →
      0 ≤ (dragBox b ox oy gx gy W H).x ∧
      (dragBox b ox oy gx gy W H).x + (dragBox b ox oy gx gy W H).width ≤ W ∧
      0 ≤ (dragBox b ox oy gx gy W H).y ∧
      (dragBox b ox oy gx gy W H).y + (dragBox b ox oy gx gy W H).height ≤ H ∧
      (dragBox b ox oy gx gy W H).width = b.width ∧
      (dragBox b ox oy gx gy W H).height = b.height) ∧
    (50 ≤ box.width → 20 ≤ box.height →
      50 ≤ (resizeBox h box orig dx dy W H).width ∧
      20 ≤ (resizeBox h box orig dx dy W H).height ∧
      0 ≤ (resizeBox h box orig dx dy W H).x ∧
      0 ≤ (resizeBox h box orig dx dy W H).y ∧
      ((resizeBox h box orig dx dy W H).width ≤ W →
        (resizeBox h box orig dx dy W H).x + (resizeBox h box orig dx dy W H).width ≤ W) ∧
      ((resizeBox h box orig dx dy W H).height ≤ H →
        (resizeBox h box orig dx dy W H).y + (resizeBox h box orig dx dy W H).height ≤ H)) ∧
    (0 ≤ step → 0 ≤ b.x → 0 ≤ b.y →
      0 ≤ (nudgeBox k step b).x ∧ 0 ≤ (nudgeBox k step b).y ∧
      (nudgeBox k step b).width = b.width ∧ (nudgeBox k step b).height = b.height) ∧
    (∀ nid : ℕ, 50 ≤ (addedBox nid).width ∧ 20 ≤ (addedBox nid).height ∧
      0 ≤ (addedBox nid).x ∧ 0 ≤ (addedBox nid).y) := by
  refine ⟨fun hw hh => ?_, fun h50 h20 => ?_, fun hs hx hy => ?_, fun nid => ?_⟩
  · simp only [dragBox]
    exact ⟨clamp_nonneg _ _, clamp_add_le _ _ _ hw, clamp_nonneg _ _,
      clamp_add_le _ _ _ hh, by trivial, by trivial⟩
  · cases h <;>
      exact ⟨by first | exact le_max_left _ _ | exact h50,
        by first | exact le_max_left _ _ | exact h20,
        clamp_nonneg _ _, clamp_nonneg _ _,
        fun hw => clamp_add_le _ _ _ hw, fun hh => clamp_add_le _ _ _ hh⟩
  · cases k <;>
      refine ⟨?_, ?_, rfl, rfl⟩ <;>
      simp only [nudgeBox] <;>
      first
        | exact le_max_left _ _
        | assumption
        | linarith
  · simp only [addedBox]
    refine ⟨by norm_num, by norm_num, by positivity, by positivity⟩

/-- Claim C2 witness: the amended theorem instantiated on a 1000×800 image,
with a 60×30 box dragged, resized by the `nw` handle and nudged left. -/
theorem box_mutations_amended_witness :
    (dragBox ⟨5, 5, 60, 30⟩ 100 100 2 3 1000 800).x +
      (dragBox ⟨5, 5, 60, 30⟩ 100 100 2 3 1000 800).width ≤ 1000 ∧
    50 ≤ (resizeBox .nw ⟨5, 5, 60, 30⟩ ⟨5, 5, 60, 30⟩ 2 3 1000 800).width ∧
    0 ≤ (nudgeBox .left 1 ⟨5, 5, 60, 30⟩).x := by
  obtain ⟨hd, hr, hn, _⟩ :=
    box_mutations_amended ⟨5, 5, 60, 30⟩ ⟨5, 5, 60, 30⟩ ⟨5, 5, 60, 30⟩ .nw .left
      2 3 100 100 2 3 1 1000 800
  exact ⟨(hd (by norm_num) (by norm_num)).2.1,
    (hr (by norm_num) (by norm_num)).1,
    (hn (by norm_num) (by norm_num) (by norm_num)).1⟩

/-- Claim C3 counterexample: on a 1000×100 image the code's merge gap is
`round(100·0.015) = 2` (the `|| 15` fallback fires only when the rounding
gives 0), so two surviving candidates whose vertical centers differ by 10
pixels are both kept — the pipeline returns two detections — even though 10
is less than the claim's threshold `max(round(0.015·H), 15) = 15`, under
which they would have merged into one. -/
theorem presto_dedup_threshold_cex :
    detectPresto [⟨"123", 10, 10, 20, 15, 90⟩, ⟨"456", 10, 20, 20, 25, 80⟩] 1000 100 =
      ⟨[⟨"123", 10, 10, 10, 5, 90⟩, ⟨"456", 10, 20, 10, 5, 80⟩], ["123", "456"]⟩ ∧
    |(toCand ⟨"456", 10, 20, 20, 25, 80⟩).cy - (toCand ⟨"123", 10, 10, 20, 15, 90⟩).cy| <
      ((max (jsRound ((100 : ℚ) * (15/1000))) 15 : ℤ) : ℚ) := by
  have hA : toCand ⟨"123", 10, 10, 20, 15, 90⟩ = ⟨"123", 10, 10, 10, 5, 15, 25/2, 90, 2⟩ := by
    simp only [toCand, digitsOf]; norm_num; decide
  have hB : toCand ⟨"456", 10, 20, 20, 25, 80⟩ = ⟨"456", 10, 20, 10, 5, 15, 45/2, 80, 2⟩ := by
    simp only [toCand, digitsOf]; norm_num; decide
  have hkA : prestoKeep 1000 100 ⟨"123", 10, 10, 10, 5, 15, 25/2, 90, 2⟩ = true := by
    simp only [prestoKeep, decide_eq_true_eq]; norm_num; decide
  have hkB : prestoKeep 1000 100 ⟨"456", 10, 20, 10, 5, 15, 45/2, 80, 2⟩ = true := by
    simp only [prestoKeep, decide_eq_true_eq]; norm_num; decide
  constructor
  · simp only [detectPresto, List.map, hA, hB, List.filter, hkA, hkB, sortLe, List.foldl, insertLe]
    norm_num [prestoLe, mergeGap, jsRound, dedupGo, candToDet]
  · rw [hA, hB]
    norm_num [jsRound]

/-- Claim C3 (corrected): the dedup walk merges a candidate into the
previously kept one exactly when their vertical centers differ by *at most*
(not strictly less than) the gap `round(0.015·H) || 15` — the rounded value
itself, with 15 only as the fallback when the rounding gives 0 (and with
`H` replaced by 1000 when `H = 0`), not `max(round(0.015·H), 15)` — the
merge keeping the new candidate exactly when its confidence is strictly
higher. On a 2000px-tall image the gap is 30, so centers 10px apart merge
(keeping the higher-confidence candidate) and centers 50px apart do not. -/
theorem presto_dedup_amended :
    (∀ (imgH : ℚ) (acc : List Cand) (last d : Cand) (rest : List Cand),
      dedupGo (mergeGap imgH) (acc ++ [last]) (d :: rest) =
        if mergeGap imgH < |d.cy - last.cy| then dedupGo (mergeGap imgH) (acc ++ [last, d]) rest
        else if last.conf < d.conf then dedupGo (mergeGap imgH) (acc ++ [d]) rest
        else dedupGo (mergeGap imgH) (acc ++ [last]) rest) ∧
    mergeGap 2000 = 30 ∧
    mergeGap 0 = 15 ∧
    detectPresto [⟨"123", 10, 100, 70, 140, 90⟩, ⟨"456", 10, 110, 70, 150, 95⟩] 1000 2000 =
      ⟨[⟨"456", 10, 110, 60, 40, 95⟩], ["456"]⟩ ∧
    detectPresto [⟨"123", 10, 100, 70, 140, 90⟩, ⟨"456", 10, 150, 70, 190, 95⟩] 1000 2000 =
      ⟨[⟨"123", 10, 100, 60, 40, 90⟩, ⟨"456", 10, 150, 60, 40, 95⟩], ["123", "456"]⟩ := by
  have hA : toCand ⟨"123", 10, 100, 70, 140, 90⟩ = ⟨"123", 10, 100, 60, 40, 40, 120, 90, 3/2⟩ := by
    simp only [toCand, digitsOf]; norm_num; decide
  have hB : toCand ⟨"456", 10, 110, 70, 150, 95⟩ = ⟨"456", 10, 110, 60, 40, 40, 130, 95, 3/2⟩ := by
    simp only [toCand, digitsOf]; norm_num; decide
  have hB' : toCand ⟨"456", 10, 150, 70, 190, 95⟩ = ⟨"456", 10, 150, 60, 40, 40, 170, 95, 3/2⟩ := by
    simp only [toCand, digitsOf]; norm_num; decide
  have hkA : prestoKeep 1000 2000 ⟨"123", 10, 100, 60, 40, 40, 120, 90, 3/2⟩ = true := by
    simp only [prestoKeep, decide_eq_true_eq]; norm_num; decide
  have hkB : prestoKeep 1000 2000 ⟨"456", 10, 110, 60, 40, 40, 130, 95, 3/2⟩ = true := by
    simp only [prestoKeep, decide_eq_true_eq]; norm_num; decide
  have hkB' : prestoKeep 1000 2000 ⟨"456", 10, 150, 60, 40, 40, 170, 95, 3/2⟩ = true := by
    simp only [prestoKeep, decide_eq_true_eq]; norm_num; decide
  refine ⟨?_, ?_, ?_, ?_, ?_⟩
  · intro imgH acc last d rest
    simp only [dedupGo, List.getLast?_concat, List.dropLast_concat, List.append_assoc,
      List.singleton_append, List.cons_append, List.nil_append]
  · simp only [mergeGap, jsRound]
    norm_num
  · simp only [mergeGap, jsRound]
    norm_num
  · simp only [detectPresto, List.map, hA, hB, List.filter, hkA, hkB, sortLe, List.foldl, insertLe]
    norm_num [prestoLe, mergeGap, jsRound, dedupGo, candToDet]
  · simp only [detectPresto, List.map, hA, hB', List.filter, hkA, hkB', sortLe, List.foldl, insertLe]
    norm_num [prestoLe, mergeGap, jsRound, dedupGo, candToDet]

/-- Claim C4 (confirmed): the batch loop produces exactly one response
entry per successfully processed box, in input order (`processBatch`
flattens the per-box outcomes in order), and a box whose processing always
throws is simply omitted: the batch result equals the result of the same
batch without that box, every other box still being processed. -/
theorem batch_failure_isolation :
    (∀ (σ : Type) (f : σ → CropReq → Option (CropEntry × σ)) (s : σ) (cs : List CropReq),
      (processBatch f s cs).1 = (runOutcomes f s cs).reduceOption) ∧
    (∀ (σ : Type) (f : σ → CropReq → Option (CropEntry × σ)) (s : σ)
        (pre : List CropReq) (c : CropReq) (post : List CropReq),
      (∀ t : σ, f t c = none) →
        processBatch f s (pre ++ c :: post) = processBatch f s (pre ++ post)) := by
  constructor
  · intro σ f s cs
    induction cs generalizing s with
    | nil => rfl
    | cons c rest ih =>
      cases hfc : f s c with
      | none => simp [processBatch, runOutcomes, hfc, List.reduceOption, ih]
      | some es => simp [processBatch, runOutcomes, hfc, List.reduceOption, ih]
  · intro σ f s pre c post hc
    induction pre generalizing s with
    | nil => simp [processBatch, hc s]
    | cons a pre ih =>
      cases hfa : f s a with
      | none => simp [processBatch, hfa, ih]
      | some es => simp [processBatch, hfa, ih]

/-- Claim C4 witness: a three-box batch whose middle box always fails
(its processor returns `none` in every state) produces the same result as
the two-box batch without it. -/
theorem batch_failure_isolation_witness :
    processBatch
        (fun (t : ℕ) (c : CropReq) =>
          if c.itemNumber = "BAD" then none else some (⟨c.itemNumber, "", c.itemNumber⟩, t + 1))
        0 [⟨0, 0, 60, 30, 0, "A", false⟩, ⟨0, 40, 60, 30, 0, "BAD", false⟩, ⟨0, 80, 60, 30, 0, "B", false⟩] =
      processBatch
        (fun (t : ℕ) (c : CropReq) =>
          if c.itemNumber = "BAD" then none else some (⟨c.itemNumber, "", c.itemNumber⟩, t + 1))
        0 [⟨0, 0, 60, 30, 0, "A", false⟩, ⟨0, 80, 60, 30, 0, "B", false⟩] :=
  batch_failure_isolation.2 ℕ
    (fun (t : ℕ) (c : CropReq) =>
      if c.itemNumber = "BAD" then none else some (⟨c.itemNumber, "", c.itemNumber⟩, t + 1))
    0 [⟨0, 0, 60, 30, 0, "A", false⟩] ⟨0, 40, 60, 30, 0, "BAD", false⟩
    [⟨0, 80, 60, 30, 0, "B", false⟩] (fun _ => rfl)

/-- Claim C5 (confirmed): the output name is the label stripped of
non-alphanumerics and uppercased with a `.png` extension (`"ab-12!"` gives
`AB12.png`), a second extraction with the same label in the same run gives
`AB12_1.png`, an empty-after-stripping label synthesizes the name from the
timestamp, and in general the collision loop returns the first free name of
the sequence `BASE.png, BASE_1.png, BASE_2.png, ...`, every earlier name of
the sequence being taken. -/
theorem crop_naming :
    cleanLabel "ab-12!" = "AB12" ∧
    findCropName [] "AB12" = some "AB12.png" ∧
    findCropName ["AB12.png"] "AB12" = some "AB12_1.png" ∧
    (∀ label ts : String, cleanLabel label = "" → chooseBase label ts = "CROP" ++ ts) ∧
    (∀ (fs : List String) (base : String) (fuel k : ℕ) (s : String),
      findNameAux fs base fuel k = some s →
        s ∉ fs ∧ ∃ j : ℕ, k ≤ j ∧ s = nameAt base j ∧
          ∀ i : ℕ, k ≤ i → i < j → nameAt base i ∈ fs) := by
  refine ⟨by decide, by decide, by decide, ?_, ?_⟩
  · intro label ts hl
    simp [chooseBase, hl]
  · intro fs base fuel
    induction fuel with
    | zero => intro k s h; exact absurd h (by simp [findNameAux])
    | succ fuel ih =>
      intro k s h
      by_cases hmem : nameAt base k ∈ fs
      · rw [findNameAux, if_pos hmem] at h
        obtain ⟨hs, j, hkj, hsj, hall⟩ := ih (k + 1) s h
        refine ⟨hs, j, by omega, hsj, fun i hki hij => ?_⟩
        by_cases hik : i = k
        · exact hik ▸ hmem
        · exact hall i (by omega) hij
      · rw [findNameAux, if_neg hmem] at h
        injection h with h
        exact ⟨h ▸ hmem, k, le_refl k, h.symm, fun i hki hik => absurd hki (by omega)⟩

/-- Claim C5 witness: the collision-loop characterization instantiated on a
directory already holding `AB12.png`, and the timestamp fallback on the
label `"--!"` which is empty after stripping. -/
theorem crop_naming_witness :
    ("AB12_1.png" ∉ ["AB12.png"] ∧ ∃ j : ℕ, 0 ≤ j ∧ "AB12_1.png" = nameAt "AB12" j ∧
      ∀ i : ℕ, 0 ≤ i → i < j → nameAt "AB12" i ∈ ["AB12.png"]) ∧
    chooseBase "--!" "1730000000000" = "CROP" ++ "1730000000000" :=
  ⟨crop_naming.2.2.2.2 ["AB12.png"] "AB12" 2 0 "AB12_1.png" (by decide),
    crop_naming.2.2.2.1 "--!" "1730000000000" (by decide)⟩

/-- The dispatch on empty OCR word lists yields the empty output for every
strategy value. -/
theorem detectRoute_empty_words (st : String) (w h : ℚ) :
    detectRoute st [] [] w h = ⟨[], []⟩ := by
  rw [detectRoute]
  by_cases hst : st = "nurre"
  · rw [if_pos hst]; rfl
  · rw [if_neg hst]; rfl

/-- Claim C6 (confirmed): when SECONDARY (nurre) yields zero candidates,
the endpoint's final detections and itemNumbers are exactly PRIMARY
(presto)'s output on the same preprocessed whole image — also when PRIMARY
itself finds nothing, since both outputs are then the empty record. -/
theorem nurre_zero_falls_back_to_presto (pw nwords : List RawWord) (W H : ℚ)
    (hemp : (detectNurreBig nwords W H).detections = []) :
    (detectEndpoint (some ()) "nurre" (Except.ok (W, H, pw, nwords))).detections =
      (detectPresto pw W H).detections ∧
    (detectEndpoint (some ()) "nurre" (Except.ok (W, H, pw, nwords))).itemNumbers =
      (detectPresto pw W H).itemNumbers ∧
    detectRoute "nurre" pw nwords W H = detectPresto pw W H := by
  have hr := detectRoute_nurre_fallback pw nwords W H hemp
  refine ⟨?_, ?_, hr⟩
  · show (detectRoute "nurre" pw nwords W H).detections = _
    rw [hr]
  · show (detectRoute "nurre" pw nwords W H).itemNumbers = _
    rw [hr]

/-- Claim C6 witness: a nurre request whose restricted-region recognition
returned no words at all (so SECONDARY has zero candidates) while the whole
image contains one valid PRIMARY match. -/
theorem nurre_zero_falls_back_to_presto_witness :
    (detectEndpoint (some ()) "nurre"
        (Except.ok (1000, 2000, [⟨"123", 10, 100, 70, 140, 90⟩], []))).detections =
      (detectPresto [⟨"123", 10, 100, 70, 140, 90⟩] 1000 2000).detections ∧
    detectRoute "nurre" [⟨"123", 10, 100, 70, 140, 90⟩] [] 1000 2000 =
      detectPresto [⟨"123", 10, 100, 70, 140, 90⟩] 1000 2000 := by
  obtain ⟨h1, _, h3⟩ :=
    nurre_zero_falls_back_to_presto [⟨"123", 10, 100, 70, 140, 90⟩] [] 1000 2000 rfl
  exact ⟨h1, h3⟩

/-- Claim C7 (confirmed): the detection endpoint always answers with a
success status; a missing bitmap, a thrown processing fault, and an empty
recognizer result all produce the success response with empty detections
and itemNumbers rather than an error. -/
theorem detect_endpoint_never_errors (fl : Option Unit) (st : String)
    (oc : Except Unit (ℚ × ℚ × List RawWord × List RawWord)) :
    (detectEndpoint fl st oc).ok = true ∧
    (fl = none →
      (detectEndpoint fl st oc).detections = [] ∧ (detectEndpoint fl st oc).itemNumbers = []) ∧
    (∀ e : Unit, oc = Except.error e →
      (detectEndpoint fl st oc).detections = [] ∧ (detectEndpoint fl st oc).itemNumbers = []) ∧
    (∀ w h : ℚ,
      (detectEndpoint (some ()) st (Except.ok (w, h, [], []))).detections = [] ∧
      (detectEndpoint (some ()) st (Except.ok (w, h, [], []))).itemNumbers = []) := by
  refine ⟨?_, ?_, ?_, ?_⟩
  · cases fl with
    | none => rfl
    | some u =>
      cases oc with
      | error e => rfl
      | ok v => obtain ⟨w, h, pw, nwords⟩ := v; rfl
  · intro hfl; subst hfl; exact ⟨rfl, rfl⟩
  · intro e he
    cases fl with
    | none => exact ⟨rfl, rfl⟩
    | some u => subst he; exact ⟨rfl, rfl⟩
  · intro w h
    have hr := detectRoute_empty_words st w h
    constructor
    · show (detectRoute st [] [] w h).detections = []
      rw [hr]
    · show (detectRoute st [] [] w h).itemNumbers = []
      rw [hr]

/-- Claim C7 witness: the missing-bitmap request: a success response with
both lists empty. -/
theorem detect_endpoint_never_errors_witness :
    (detectEndpoint none "presto" (Except.error ())).ok = true ∧
    (detectEndpoint none "presto" (Except.error ())).detections = [] ∧
    (detectEndpoint none "presto" (Except.error ())).itemNumbers = [] := by
  obtain ⟨h1, h2, _, _⟩ := detect_endpoint_never_errors none "presto" (Except.error ())
  exact ⟨h1, (h2 rfl).1, (h2 rfl).2⟩

/-- Claim C8 counterexample: resizing with the `n` handle a box of minimum
height (20) by `dy = 10` engages the `max 20` clamp; the origin still
shifts to `y = 10`, so the bottom edge moves from 20 to 30 instead of
staying anchored at its pre-drag position. -/
theorem resize_min_clamp_moves_anchor :
    resizeBox .n ⟨0, 0, 100, 20⟩ ⟨0, 0, 100, 20⟩ 0 10 1000 1000 = ⟨0, 10, 100, 20⟩ ∧
    (resizeBox .n ⟨0, 0, 100, 20⟩ ⟨0, 0, 100, 20⟩ 0 10 1000 1000).y +
        (resizeBox .n ⟨0, 0, 100, 20⟩ ⟨0, 0, 100, 20⟩ 0 10 1000 1000).height ≠
      (⟨0, 0, 100, 20⟩ : Box).y + (⟨0, 0, 100, 20⟩ : Box).height := by
  constructor
  · simp only [resizeBox]
    norm_num
  · simp only [resizeBox]
    norm_num

/-- Claim C8 (corrected): a near-side resize sets the origin to
`orig + delta` after the minimum-size clamps, then clamps to the image, so
the opposite edge/corner stays anchored at its pre-drag position exactly
when neither the minimum-size clamp nor the boundary clamp engages; under
those no-clamp conditions the anchor law holds for each near handle
(`n`, `w`, `nw`, `ne`, `sw`). -/
theorem resize_near_anchor_amended (box orig : Box) (dx dy W H : ℚ) :
    (20 ≤ orig.height - dy → 0 ≤ orig.y + dy → orig.y + orig.height ≤ H →
      (resizeBox .n box orig dx dy W H).y + (resizeBox .n box orig dx dy W H).height =
        orig.y + orig.height) ∧
    (50 ≤ orig.width - dx → 0 ≤ orig.x + dx → orig.x + orig.width ≤ W →
      (resizeBox .w box orig dx dy W H).x + (resizeBox .w box orig dx dy W H).width =
        orig.x + orig.width) ∧
    (50 ≤ orig.width - dx → 0 ≤ orig.x + dx → orig.x + orig.width ≤ W →
      20 ≤ orig.height - dy → 0 ≤ orig.y + dy → orig.y + orig.height ≤ H →
      (resizeBox .nw box orig dx dy W H).x + (resizeBox .nw box orig dx dy W H).width =
          orig.x + orig.width ∧
        (resizeBox .nw box orig dx dy W H).y + (resizeBox .nw box orig dx dy W H).height =
          orig.y + orig.height) ∧
    (box.x = orig.x → 0 ≤ orig.x → orig.x + max 50 (orig.width + dx) ≤ W →
      20 ≤ orig.height - dy → 0 ≤ orig.y + dy → orig.y + orig.height ≤ H →
      (resizeBox .ne box orig dx dy W H).x = orig.x ∧
        (resizeBox .ne box orig dx dy W H).y + (resizeBox .ne box orig dx dy W H).height =
          orig.y + orig.height) ∧
    (box.y = orig.y → 0 ≤ orig.y → orig.y + max 20 (orig.height + dy) ≤ H →
      50 ≤ orig.width - dx → 0 ≤ orig.x + dx → orig.x + orig.width ≤ W →
      (resizeBox .sw box orig dx dy W H).y = orig.y ∧
        (resizeBox .sw box orig dx dy W H).x + (resizeBox .sw box orig dx dy W H).width =
          orig.x + orig.width) := by
  refine ⟨fun h20 hy0 hyH => ?_, fun h50 hx0 hxW => ?_,
    fun h50 hx0 hxW h20 hy0 hyH => ?_, fun hbx hx0 hxW h20 hy0 hyH => ?_,
    fun hby hy0 hyH h50 hx0 hxW => ?_⟩
  · simp only [resizeBox]
    rw [max_eq_right h20, clamp_eq _ _ hy0 (by linarith)]
    ring
  · simp only [resizeBox]
    rw [max_eq_right h50, clamp_eq _ _ hx0 (by linarith)]
    ring
  · simp only [resizeBox]
    rw [max_eq_right h50, max_eq_right h20,
      clamp_eq (orig.x + dx) _ hx0 (by linarith), clamp_eq (orig.y + dy) _ hy0 (by linarith)]
    exact ⟨by ring, by ring⟩
  · simp only [resizeBox]
    rw [max_eq_right h20, hbx,
      clamp_eq orig.x _ hx0 (by linarith), clamp_eq (orig.y + dy) _ hy0 (by linarith)]
    exact ⟨rfl, by ring⟩
  · simp only [resizeBox]
    rw [max_eq_right h50, hby,
      clamp_eq orig.y _ hy0 (by linarith), clamp_eq (orig.x + dx) _ hx0 (by linarith)]
    exact ⟨rfl, by ring⟩

/-- Claim C8 witness: the anchor law instantiated on a 1000×1000 image, a
200×100 box at (100, 100) and deltas (10, 10), where no clamp engages. -/
theorem resize_near_anchor_amended_witness :
    ((resizeBox .n ⟨100, 100, 200, 100⟩ ⟨100, 100, 200, 100⟩ 10 10 1000 1000).y +
        (resizeBox .n ⟨100, 100, 200, 100⟩ ⟨100, 100, 200, 100⟩ 10 10 1000 1000).height =
      (⟨100, 100, 200, 100⟩ : Box).y + (⟨100, 100, 200, 100⟩ : Box).height) ∧
    ((resizeBox .w ⟨100, 100, 200, 100⟩ ⟨100, 100, 200, 100⟩ 10 10 1000 1000).x +
        (resizeBox .w ⟨100, 100, 200, 100⟩ ⟨100, 100, 200, 100⟩ 10 10 1000 1000).width =
      (⟨100, 100, 200, 100⟩ : Box).x + (⟨100, 100, 200, 100⟩ : Box).width) ∧
    ((resizeBox .ne ⟨100, 100, 200, 100⟩ ⟨100, 100, 200, 100⟩ 10 10 1000 1000).x =
      (⟨100, 100, 200, 100⟩ : Box).x) ∧
    ((resizeBox .sw ⟨100, 100, 200, 100⟩ ⟨100, 100, 200, 100⟩ 10 10 1000 1000).y =
      (⟨100, 100, 200, 100⟩ : Box).y) := by
  obtain ⟨hn, hw, hnw, hne, hsw⟩ :=
    resize_near_anchor_amended ⟨100, 100, 200, 100⟩ ⟨100, 100, 200, 100⟩ 10 10 1000 1000
  exact ⟨hn (by norm_num) (by norm_num) (by norm_num),
    hw (by norm_num) (by norm_num) (by norm_num),
    (hne (by norm_num) (by norm_num) (by norm_num) (by norm_num) (by norm_num) (by norm_num)).1,
    (hsw (by norm_num) (by norm_num) (by norm_num) (by norm_num) (by norm_num) (by norm_num)).1⟩

/-- Claim C9 counterexample: pressing the Focus button of image 1 while the
view is zoomed to 2 and panned to (5, 7) switches focus but leaves the view
untouched — the view is not reset to zoom 1.0 and pan (0, 0). -/
theorem focus_button_keeps_view :
    (focusButtonClick 1 ⟨0, 2, (5, 7), false, (0, 0), false, false, (0, 0), none, none, none⟩).activeIdx = 1 ∧
    ¬((focusButtonClick 1 ⟨0, 2, (5, 7), false, (0, 0), false, false, (0, 0), none, none, none⟩).zoom = 1 ∧
      (focusButtonClick 1 ⟨0, 2, (5, 7), false, (0, 0), false, false, (0, 0), none, none, none⟩).panOffset = (0, 0)) := by
  constructor
  · rfl
  · intro hcon
    have h2 : (2 : ℚ) = 1 := hcon.1
    norm_num at h2

/-- Claim C9 (corrected): only the thumbnail-click path resets the view —
`setActiveByThumb` sets zoom 1 and pan (0, 0) while switching focus — and
both the Focus button and a pointer-down on another image's canvas switch
the focused image while preserving zoom and pan unchanged. -/
theorem focus_change_view_amended (i : ℕ) (s : UIState) (boxes : List BoxI)
    (cx cy rl rt sc : ℚ) (sh : Bool) :
    ((setActiveByThumb i s).zoom = 1 ∧ (setActiveByThumb i s).panOffset = (0, 0) ∧
      (setActiveByThumb i s).activeIdx = i) ∧
    ((focusButtonClick i s).activeIdx = i ∧ (focusButtonClick i s).zoom = s.zoom ∧
      (focusButtonClick i s).panOffset = s.panOffset) ∧
    ((handleMouseDown s i boxes cx cy rl rt sc sh).zoom = s.zoom ∧
      (handleMouseDown s i boxes cx cy rl rt sc sh).panOffset = s.panOffset ∧
      (handleMouseDown s i boxes cx cy rl rt sc sh).activeIdx = i) := by
  refine ⟨⟨rfl, rfl, rfl⟩, ⟨rfl, rfl, rfl⟩, ?_⟩
  by_cases hidx : s.activeIdx ≠ i
  · simp only [handleMouseDown, if_pos hidx]
    split
    · exact ⟨rfl, rfl, rfl⟩
    · split
      · exact ⟨rfl, rfl, rfl⟩
      · split
        · exact ⟨rfl, rfl, rfl⟩
        · exact ⟨rfl, rfl, rfl⟩
  · have hidx' : s.activeIdx = i := not_ne_iff.mp hidx
    simp only [handleMouseDown, if_neg hidx]
    split
    · exact ⟨rfl, rfl, hidx'⟩
    · split
      · exact ⟨rfl, rfl, hidx'⟩
      · split
        · exact ⟨rfl, rfl, hidx'⟩
        · exact ⟨rfl, rfl, hidx'⟩

/-- Claim C10 counterexample: a detection request with no bitmap attached
is answered by the empty response, which carries no `strategyUsed` field at
all — in particular it does not equal the selected strategy name. -/
theorem missing_file_lacks_strategyUsed :
    (detectEndpoint none (selectStrategy none none none) (Except.error ())).strategyUsed = none ∧
    (detectEndpoint none (selectStrategy none none none) (Except.error ())).strategyUsed ≠
      some (selectStrategy none none none) := by
  exact ⟨rfl, by decide⟩

/-- Claim C10 (corrected): on the main success response the `strategyUsed`
field echoes the *selected* strategy name — query parameter first, then
body field, then the `x-ocr-strategy` header, each skipped when absent or
empty, defaulting to `presto` — even when nurre produced zero candidates
and the returned detections came from the presto fallback; the
missing-bitmap and internal-fault responses omit the field. -/
theorem strategyUsed_echoes_selection (q b hdr : Option String) (w h : ℚ)
    (pw nwords : List RawWord) :
    ((detectEndpoint (some ()) (selectStrategy q b hdr) (Except.ok (w, h, pw, nwords))).strategyUsed
        = some (selectStrategy q b hdr)) ∧
    (selectStrategy q b hdr = "nurre" → (detectNurreBig nwords w h).detections = [] →
      (detectEndpoint (some ()) (selectStrategy q b hdr) (Except.ok (w, h, pw, nwords))).detections
        = (detectPresto pw w h).detections) ∧
    (∀ s : String, s ≠ "" → selectStrategy (some s) b hdr = s) ∧
    (∀ s : String, s ≠ "" → selectStrategy none (some s) hdr = s) ∧
    (∀ s : String, s ≠ "" → selectStrategy none none (some s) = s) ∧
    selectStrategy none none none = "presto" := by
  refine ⟨rfl, ?_, ?_, ?_, ?_, rfl⟩
  · intro hsel hemp
    show (detectRoute (selectStrategy q b hdr) pw nwords w h).detections = _
    rw [hsel, detectRoute_nurre_fallback pw nwords w h hemp]
  · intro s hs
    simp [selectStrategy, truthyD, hs]
  · intro s hs
    simp [selectStrategy, truthyD, hs]
  · intro s hs
    simp [selectStrategy, truthyD, hs]

/-- Claim C10 witness: a request selecting nurre through the query
parameter, whose restricted-region recognition found nothing: the response
reports `strategyUsed = "nurre"` while its detections are presto's. -/
theorem strategyUsed_echoes_selection_witness :
    (detectEndpoint (some ()) (selectStrategy (some "nurre") none none)
        (Except.ok (1000, 2000, [⟨"123", 10, 100, 70, 140, 90⟩], []))).strategyUsed =
      some (selectStrategy (some "nurre") none none) ∧
    (detectEndpoint (some ()) (selectStrategy (some "nurre") none none)
        (Except.ok (1000, 2000, [⟨"123", 10, 100, 70, 140, 90⟩], []))).detections =
      (detectPresto [⟨"123", 10, 100, 70, 140, 90⟩] 1000 2000).detections := by
  obtain ⟨h1, h2, _⟩ :=
    strategyUsed_echoes_selection (some "nurre") none none 1000 2000
      [⟨"123", 10, 100, 70, 140, 90⟩] []
  exact ⟨h1, h2 rfl rfl⟩

end SFS
